import Mathlib

/-!
# Build controller of the engine (`internal/engine/buildcontroller.go`)

A shallow embedding of the `BuildController` subscriber: the debounced
`needsBuild` decision, the task that `OnChange` starts, the log banner and the
single-manifest reload, together with the properties the specification states
about them.

Conventions of the embedding.

* Go `string` is `String`; Go `int` is `Int` (the controller only compares and
  copies the counter, it never does arithmetic on it).
* A Go map that is iterated (`PendingFileChanges`) is its list of entries in
  iteration order, with pairwise distinct keys. A Go map that is only looked up
  (`ManifestStates`) is a lookup function; `none` is the nil pointer that a
  missing key yields.
* A run-time panic is `Except.error`.
* The goroutine that `OnChange` starts is the list of effects it performs, in
  program order.
-/

namespace Tilt

/-! ## Data model -/

abbrev ManifestName := String

/-- Kind of deploy target of a manifest. -/
inductive DeployTarget
  | cluster
  | compose
  deriving DecidableEq, Repr

/-- Trigger policy of a manifest. -/
inductive TriggerMode
  | auto
  | manual
  deriving DecidableEq, Repr

/-- Modelled from the spec: `model.Manifest` is not among the sources. It is the
immutable declarative definition of one deployable unit: name, build target,
deploy target and trigger mode. The controller reads only `Name`. -/
structure Manifest where
  Name : ManifestName
  buildTarget : String
  deployTarget : DeployTarget
  triggerMode : TriggerMode
  deriving DecidableEq, Repr

/-- Zero value `model.Manifest{}`. -/
def Manifest.zero : Manifest :=
  ⟨"", "", DeployTarget.cluster, TriggerMode.auto⟩

/-- Modelled from the spec: `store.BuildResult` is not among the sources. It
carries the identifiers of what was produced and the files the backend
applied. -/
structure BuildResult where
  produced : List String
  applied : List String
  deriving DecidableEq, Repr

/-- Zero value `store.BuildResult{}`. -/
def BuildResult.zero : BuildResult := ⟨[], []⟩

/-- Code points of a string. Go compares strings bytewise; on UTF-8 text the
bytewise order and the order of the code point sequences coincide. -/
def codes (s : String) : List Nat := s.data.map Char.toNat

/-- Go's `a <= b` on strings. -/
def strLE (a b : String) : Prop := codes a ≤ codes b

/-- Go's `a < b` on strings. -/
def strLT (a b : String) : Prop := codes a < codes b

instance strLE.decidable : DecidableRel strLE :=
  fun a b => inferInstanceAs (Decidable (codes a ≤ codes b))

instance strLT.decidable : DecidableRel strLT :=
  fun a b => inferInstanceAs (Decidable (codes a < codes b))

/-- The standard library's `sort.Strings`: the ascending rearrangement of the
slice. -/
def sortStrings (l : List String) : List String := l.insertionSort strLE

/-- Modelled from the spec: `store.BuildState` is not among the sources. It is
a derived value carrying the last build result and the sorted, deduplicated
list of files changed since. -/
structure BuildState where
  LastResult : BuildResult
  filesChanged : List String
  deriving DecidableEq, Repr

/-- Zero value `store.BuildState{}`. -/
def BuildState.zero : BuildState := ⟨BuildResult.zero, []⟩

/-- Modelled from the spec: `store.NewBuildState` is not among the sources. The
build state keeps the changed files sorted and deduplicated. -/
def NewBuildState (result : BuildResult) (files : List String) : BuildState :=
  ⟨result, sortStrings files.dedup⟩

/-- Modelled from the spec: `BuildState.FilesChanged` is not among the sources.
It returns the sorted list of changed files. -/
def BuildState.FilesChanged (b : BuildState) : List String := b.filesChanged

/-- Address of a `*bytes.Buffer`. -/
abbrev BufferRef := Nat

/-- Modelled from the spec: `context.Context` with the logger it carries; the
logger package is not among the sources. A context is identified by the sinks
its logger writes to. -/
structure Context where
  sinks : List BufferRef
  deriving DecidableEq, Repr

/-- Modelled from the spec: `logger.CtxWithForkedOutput` is not among the
sources. The derived context logs to the parent's sinks and to `w` as well. -/
def CtxWithForkedOutput (ctx : Context) (w : BufferRef) : Context :=
  ⟨ctx.sinks ++ [w]⟩

/-- The Go map `map[string]time.Time`: its entries in iteration order; keys are
pairwise distinct. -/
structure FileChangeMap where
  entries : List (String × Nat)
  nodupKeys : (entries.map Prod.fst).Nodup

/-- Keys of the map in iteration order (`for file, _ := range m`). -/
def FileChangeMap.keys (m : FileChangeMap) : List String := m.entries.map Prod.fst

/-- The fields of `store.ManifestState` that the controller reads. -/
structure ManifestState where
  Manifest : Manifest
  PendingFileChanges : FileChangeMap
  HasBeenBuilt : Bool
  ConfigIsDirty : Bool
  LastBuild : BuildResult
  CurrentBuildLog : BufferRef

/-- The fields of `store.EngineState` that the controller reads. -/
structure EngineState where
  ManifestStates : ManifestName → Option ManifestState
  ManifestsToBuild : List ManifestName
  BuildControllerActionCount : Int

/-- Go `error` values, identified by their message. -/
structure GoError where
  msg : String
  deriving DecidableEq, Repr

/-- Arguments of a formatting call. -/
inductive FmtArg
  | str (s : String)
  | int (n : Int)
  | strs (l : List String)
  deriving DecidableEq, Repr

/-- Modelled from the spec: `manifestErr` and `manifestErrf` are not among the
sources. A manifest error is the structured error built from a format string
and its arguments. -/
structure manifestErr where
  format : String
  args : List FmtArg
  deriving DecidableEq, Repr

/-- Modelled from the spec: see `manifestErr`; the result is never nil. -/
def manifestErrf (format : String) (args : List FmtArg) : manifestErr :=
  ⟨format, args⟩

/-- The `BuildAndDeployer` interface. -/
structure BuildAndDeployer where
  BuildAndDeploy : Option Context → Manifest → BuildState → BuildResult × Option GoError

structure BuildController where
  b : BuildAndDeployer
  lastActionCount : Int

structure buildEntry where
  ctx : Option Context
  manifest : Manifest
  buildState : BuildState
  filesChanged : List String
  firstBuild : Bool
  needsConfigReload : Bool
  deriving DecidableEq, Repr

/-- Zero value `buildEntry{}`. -/
def buildEntry.zero : buildEntry :=
  ⟨none, Manifest.zero, BuildState.zero, [], false, false⟩

/-- Run-time panics of the Go program. -/
inductive Panic
  | nilDereference
  | indexOutOfRange
  deriving DecidableEq, Repr

/-! ## Actions and effects -/

/-- The actions the controller dispatches. Their declarations are not among the
sources; each field holds the value the controller puts into it, so `Error` of
a `ManifestReloadedAction` is the `*manifestErr` that the reload returned,
`none` being the nil pointer. -/
inductive Action
  | ManifestReloadedAction (OldManifest NewManifest : Manifest) (Error : Option manifestErr)
  | BuildStartedAction (Manifest : Manifest) (StartTime : Nat) (FilesChanged : List String)
  | BuildCompleteAction (Result : BuildResult) (Error : Option GoError)
  deriving DecidableEq, Repr

/-- Modelled from the spec: `NewBuildCompleteAction` is not among the sources.
The completion action carries the result and the error the strategy returned. -/
def NewBuildCompleteAction (result : BuildResult) (err : Option GoError) : Action :=
  Action.BuildCompleteAction result err

inductive Color
  | blue
  | green
  deriving DecidableEq, Repr

/-- Result of `logger.Blue(l).Sprintf(format, args...)` and its green sibling. -/
structure Colored where
  color : Color
  format : String
  args : List FmtArg
  deriving DecidableEq, Repr

/-- Arguments of a logging call. -/
inductive LogArg
  | colored (p : Colored)
  | plain (a : FmtArg)
  deriving DecidableEq, Repr

/-- One call `l.Infof(format, args...)`. -/
structure LogLine where
  format : String
  args : List LogArg
  deriving DecidableEq, Repr

/-- What the task does, in program order. -/
inductive Effect
  | dispatch (a : Action)
  | infof (ctx : Option Context) (line : LogLine)
  | tiltfileLoad (ctx : Option Context)
  | buildAndDeploy (ctx : Option Context) (manifest : Manifest) (state : BuildState)
  deriving DecidableEq, Repr

/-- A loaded Tiltfile (`tiltfile.Load` is an external collaborator). -/
structure Tiltfile where
  GetManifestConfigs : String → Except GoError (List Manifest)

/-- What the task reads from outside the program. -/
structure World where
  /-- Value of `time.Now()`. -/
  now : Nat
  /-- Outcome of `tiltfile.Load(tiltfile.FileName, writer)`. -/
  load : Except GoError Tiltfile
  /-- The function `ospath.TryAsCwdChildren`. -/
  TryAsCwdChildren : List String → List String
  /-- The constant `maxChangedFilesToPrint`. -/
  maxChangedFilesToPrint : Nat

/-! ## The controller -/

def NewBuildController (b : BuildAndDeployer) : BuildController :=
  ⟨b, -1⟩

/-- `BuildController.needsBuild`: the updated controller, the entry and `ok`. -/
def needsBuild (c : BuildController) (ctx : Context) (state : EngineState) :
    Except Panic (BuildController × buildEntry × Bool) :=
  if state.ManifestsToBuild.length = 0 then
    Except.ok (c, buildEntry.zero, false)
  else if c.lastActionCount = state.BuildControllerActionCount then
    Except.ok (c, buildEntry.zero, false)
  else
    match state.ManifestsToBuild[0]? with
    | none => Except.error Panic.indexOutOfRange
    | some mn =>
      let c1 : BuildController := ⟨c.b, state.BuildControllerActionCount⟩
      match state.ManifestStates mn with
      | none => Except.error Panic.nilDereference
      | some ms =>
        let manifest := ms.Manifest
        let firstBuild := !ms.HasBeenBuilt
        let filesChanged := sortStrings ms.PendingFileChanges.keys
        let buildState := NewBuildState ms.LastBuild filesChanged
        let needsConfigReload := ms.ConfigIsDirty
        let ctx1 := CtxWithForkedOutput ctx ms.CurrentBuildLog
        Except.ok (c1,
          { ctx := some ctx1
            manifest := manifest
            firstBuild := firstBuild
            buildState := buildState
            filesChanged := filesChanged
            needsConfigReload := needsConfigReload },
          true)

/-- The function `getNewManifestFromTiltfile`. -/
def getNewManifestFromTiltfile (w : World) (name : ManifestName) :
    Manifest × Option manifestErr :=
  match w.load with
  | Except.error err => (Manifest.zero, some (manifestErrf err.msg []))
  | Except.ok t =>
    match t.GetManifestConfigs name with
    | Except.error err => (Manifest.zero, some (manifestErrf err.msg []))
    | Except.ok newManifests =>
      if h : newManifests.length ≠ 1 then
        (Manifest.zero,
          some (manifestErrf "Expected there to be 1 manifest for %s, got %d"
            [FmtArg.str name, FmtArg.int newManifests.length]))
      else
        let newManifest := newManifests.get ⟨0, by omega⟩
        (newManifest, none)

/-- `BuildController.logBuildEntry`: the `Infof` calls it makes, in order. -/
def logBuildEntry (w : World) (entry : buildEntry) : List LogLine :=
  let firstBuild := entry.firstBuild
  let manifest := entry.manifest
  let buildState := entry.buildState
  if firstBuild then
    let p : Colored := ⟨Color.blue, "──┤ Building: ", []⟩
    let s : Colored := ⟨Color.blue, " ├──────────────────────────────────────────────", []⟩
    [⟨"%s%s%s", [LogArg.colored p, LogArg.plain (FmtArg.str manifest.Name), LogArg.colored s]⟩]
  else
    let changedFiles := buildState.FilesChanged
    let changedPathsToPrint :=
      if changedFiles.length > w.maxChangedFilesToPrint then
        changedFiles.take w.maxChangedFilesToPrint ++ ["..."]
      else
        changedFiles
    let p : Colored := ⟨Color.green, "\n%d changed: ", [FmtArg.int changedFiles.length]⟩
    let rp : Colored := ⟨Color.blue, "──┤ Rebuilding: ", []⟩
    let rs : Colored := ⟨Color.blue, " ├────────────────────────────────────────────", []⟩
    [⟨"%s%v\n", [LogArg.colored p, LogArg.plain (FmtArg.strs (w.TryAsCwdChildren changedPathsToPrint))]⟩,
     ⟨"%s%s%s", [LogArg.colored rp, LogArg.plain (FmtArg.str manifest.Name), LogArg.colored rs]⟩]

/-- Body of the goroutine that `OnChange` starts for `entry`. -/
def buildTask (c : BuildController) (w : World) (entry : buildEntry) : List Effect :=
  if entry.needsConfigReload then
    let r := getNewManifestFromTiltfile w entry.manifest.Name
    [Effect.tiltfileLoad entry.ctx,
     Effect.dispatch (Action.ManifestReloadedAction entry.manifest r.1 r.2)]
  else
    let r := c.b.BuildAndDeploy entry.ctx entry.manifest entry.buildState
    [Effect.dispatch (Action.BuildStartedAction entry.manifest w.now entry.filesChanged)]
      ++ (logBuildEntry w entry).map (Effect.infof entry.ctx)
      ++ [Effect.buildAndDeploy entry.ctx entry.manifest entry.buildState,
          Effect.dispatch (NewBuildCompleteAction r.1 r.2)]

/-- `BuildController.OnChange`: the updated controller and the entry of the task
it started, if it started one. -/
def OnChange (c : BuildController) (ctx : Context) (state : EngineState) :
    Except Panic (BuildController × Option buildEntry) :=
  match needsBuild c ctx state with
  | Except.error p => Except.error p
  | Except.ok (c1, entry, ok) =>
    if !ok then Except.ok (c1, none) else Except.ok (c1, some entry)

/-! ## Reading a trace -/

/-- The actions a trace dispatches, in order. -/
def dispatched : List Effect → List Action
  | [] => []
  | Effect.dispatch a :: es => a :: dispatched es
  | _ :: es => dispatched es

/-- The calls of `BuildAndDeploy` in a trace, in order. -/
def deployCalls : List Effect → List (Option Context × Manifest × BuildState)
  | [] => []
  | Effect.buildAndDeploy ctx m s :: es => (ctx, m, s) :: deployCalls es
  | _ :: es => deployCalls es

/-- The manifest state of the head of the build queue, if both exist. -/
def headState (state : EngineState) : Option ManifestState :=
  match state.ManifestsToBuild with
  | [] => none
  | mn :: _ => state.ManifestStates mn

/-- The entry that `needsBuild` assembles from the manifest state of the queue
head (lines 51 to 76 of the source). -/
def entryFor (ctx : Context) (ms : ManifestState) : buildEntry :=
  { ctx := some (CtxWithForkedOutput ctx ms.CurrentBuildLog)
    manifest := ms.Manifest
    firstBuild := !ms.HasBeenBuilt
    buildState := NewBuildState ms.LastBuild (sortStrings ms.PendingFileChanges.keys)
    filesChanged := sortStrings ms.PendingFileChanges.keys
    needsConfigReload := ms.ConfigIsDirty }

/-! ## Concrete inputs -/

/-- A strategy that always succeeds with an empty result. -/
def okDeployer : BuildAndDeployer := ⟨fun _ _ _ => (BuildResult.zero, none)⟩

/-- A strategy that always fails. -/
def failDeployer : BuildAndDeployer :=
  ⟨fun _ _ _ => (BuildResult.zero, some ⟨"build failed"⟩)⟩

def manifestA : Manifest := ⟨"A", "img-a", DeployTarget.cluster, TriggerMode.auto⟩

def manifestB : Manifest := ⟨"B", "img-b", DeployTarget.cluster, TriggerMode.auto⟩

/-- Pending changes `b.txt` then `a.txt`, in that iteration order. -/
def pendingBA : FileChangeMap := ⟨[("b.txt", 7), ("a.txt", 9)], by decide⟩

/-- Pending changes `c.txt` then `a.txt`, in that iteration order. -/
def pendingCA : FileChangeMap := ⟨[("c.txt", 3), ("a.txt", 4)], by decide⟩

/-- Manifest `A`: never built, two pending files, clean config. -/
def freshA : ManifestState := ⟨manifestA, pendingBA, false, false, BuildResult.zero, 100⟩

/-- Manifest `A`: built before, two pending files, clean config. -/
def builtA : ManifestState := ⟨manifestA, pendingCA, true, false, ⟨["img-a:1"], []⟩, 100⟩

/-- Manifest `A`: built before, two pending files, dirty config. -/
def dirtyA : ManifestState := ⟨manifestA, pendingCA, true, true, ⟨["img-a:1"], []⟩, 100⟩

/-- Manifest `B`: never built, nothing pending. -/
def freshB : ManifestState := ⟨manifestB, ⟨[], by decide⟩, false, false, BuildResult.zero, 200⟩

/-- Manifest states in which `A` is `a` and `B` is `freshB`. -/
def statesWith (a : ManifestState) : ManifestName → Option ManifestState :=
  fun mn => if mn = "A" then some a else if mn = "B" then some freshB else none

/-- Queue `[A, B]` at generation `n`, with `A` in state `a`. -/
def stateAB (a : ManifestState) (n : Int) : EngineState := ⟨statesWith a, ["A", "B"], n⟩

def ctx0 : Context := ⟨[1]⟩

def world0 : World := ⟨42, Except.error ⟨"no Tiltfile"⟩, id, 3⟩

/-- As `world0`, but at most one changed path is printed. -/
def world1 : World := ⟨42, Except.error ⟨"no Tiltfile"⟩, id, 1⟩

/-- A Tiltfile that defines manifest `A` once, with a new build target. -/
def tiltfileA : Tiltfile :=
  ⟨fun name =>
    if name = "A" then Except.ok [⟨"A", "img-a2", DeployTarget.cluster, TriggerMode.auto⟩]
    else Except.ok []⟩

/-- A world in which loading the Tiltfile succeeds with `tiltfileA`. -/
def worldA : World := ⟨42, Except.ok tiltfileA, id, 3⟩

/-! ## Log lines -/

/-- The `Infof` call of the first-build banner for manifest `name`. -/
def buildingBanner (name : ManifestName) : LogLine :=
  ⟨"%s%s%s",
    [LogArg.colored ⟨Color.blue, "──┤ Building: ", []⟩,
     LogArg.plain (FmtArg.str name),
     LogArg.colored ⟨Color.blue, " ├──────────────────────────────────────────────", []⟩]⟩

/-- The `Infof` call of the rebuild banner for manifest `name`. -/
def rebuildingBanner (name : ManifestName) : LogLine :=
  ⟨"%s%s%s",
    [LogArg.colored ⟨Color.blue, "──┤ Rebuilding: ", []⟩,
     LogArg.plain (FmtArg.str name),
     LogArg.colored ⟨Color.blue, " ├────────────────────────────────────────────", []⟩]⟩

/-- The `Infof` call of the changed-files line: the count `n` and the printed
paths. -/
def changedLine (n : Nat) (paths : List String) : LogLine :=
  ⟨"%s%v\n",
    [LogArg.colored ⟨Color.green, "\n%d changed: ", [FmtArg.int n]⟩,
     LogArg.plain (FmtArg.strs paths)]⟩

/-- The paths handed to the changed-files line for the file list `files`. -/
def pathsToPrint (w : World) (files : List String) : List String :=
  if files.length > w.maxChangedFilesToPrint then
    files.take w.maxChangedFilesToPrint ++ ["..."]
  else
    files

/-! ## The controller inside the store loop -/

/-- What the store does around the controller: it calls `OnChange` with the
state it holds, or its reducer applies the completion action (build-complete or
manifest-reloaded) of a started task. -/
inductive StoreStep
  | onChange (ctx : Context) (state : EngineState)
  | completionReduced

/-- The controller together with the number of tasks it has started whose
completion action has not been reduced yet, and the largest value that number
has had. -/
structure Run where
  controller : BuildController
  inFlight : Nat
  peak : Nat

def Run.init (c : BuildController) : Run := ⟨c, 0, 0⟩

/-- One step of the store loop. A panic of `OnChange` ends the process, which
is `none`. -/
def Run.step (r : Run) : StoreStep → Option Run
  | StoreStep.onChange ctx state =>
    match OnChange r.controller ctx state with
    | Except.error _ => none
    | Except.ok (c1, none) => some ⟨c1, r.inFlight, r.peak⟩
    | Except.ok (c1, some _) => some ⟨c1, r.inFlight + 1, max r.peak (r.inFlight + 1)⟩
  | StoreStep.completionReduced => some ⟨r.controller, r.inFlight - 1, r.peak⟩

/-- The run of the store loop over the given steps, up to the end of the list
or to the panic that ends the process. -/
def Run.steps (r : Run) : List StoreStep → Run
  | [] => r
  | x :: xs =>
    match r.step x with
    | none => r
    | some r1 => r1.steps xs

/-- Largest number of tasks in flight at once during a run. -/
def peakInFlight (c : BuildController) (xs : List StoreStep) : Nat :=
  ((Run.init c).steps xs).peak

/-- The counter discipline: `BuildControllerActionCount` changes only when a
completion action is reduced. `g` is the counter of the states presented since
the last such reduction, if any was presented. -/
def counterHeld : Option Int → List StoreStep → Prop
  | _, [] => True
  | g, StoreStep.onChange _ state :: xs =>
    (g = none ∨ g = some state.BuildControllerActionCount) ∧
      counterHeld (some state.BuildControllerActionCount) xs
  | _, StoreStep.completionReduced :: xs => counterHeld none xs

/-! ## The store invariant -/

/-- The invariant the reducer keeps on the build queue: every queued name has
its (non-nil) entry in `ManifestStates`. -/
def queueHasStates (s : EngineState) : Prop :=
  ∀ mn ∈ s.ManifestsToBuild, (s.ManifestStates mn).isSome = true

instance queueHasStates.decidable (s : EngineState) : Decidable (queueHasStates s) :=
  inferInstanceAs (Decidable (∀ mn ∈ s.ManifestsToBuild, (s.ManifestStates mn).isSome = true))

/-- Five pending changes, in this iteration order. -/
def pendingMany : FileChangeMap :=
  ⟨[("e.go", 1), ("d.go", 2), ("c.go", 3), ("b.go", 4), ("a.go", 5)], by decide⟩

/-- Manifest `A`: built before, five pending files, clean config. -/
def builtMany : ManifestState := ⟨manifestA, pendingMany, true, false, ⟨["img-a:1"], []⟩, 100⟩

/-- Queue `[A]` and no manifest state at all: the store invariant is broken. -/
def stateOrphan : EngineState := ⟨fun _ => none, ["A"], 0⟩

/-! ## The composite strategy -/

/-- Modelled from the spec: the build backends are not among the sources. The
wiring names four of them; the synclet, the local-container and the image
build-and-deployer are the cluster-oriented ones. -/
inductive BackendKind
  | synclet
  | localContainer
  | image
  | dockerCompose
  deriving DecidableEq, Repr

/-- Modelled from the spec: what executing a backend yields; the backends are
not among the sources. It is a result, a real failure, or the signal "not
viable, retry with fallback". -/
inductive ExecResult
  | succeeded (r : BuildResult)
  | failed (err : GoError)
  | notViable (err : GoError)
  deriving DecidableEq, Repr

/-- Modelled from the spec: the uniform contract of a build backend, which is
not among the sources: a pure `CanHandle` and a side-effecting `Execute`. -/
structure Backend where
  CanHandle : Manifest → BuildState → Bool
  Execute : Option Context → Manifest → BuildState → ExecResult

/-- The ordered list of backends, each with its kind. -/
abbrev BuildOrder := List (BackendKind × Backend)

/-- One invocation of the composite strategy: the backends it selected (those
it executed), in order, and what it returns. -/
structure CompositeRun where
  selected : List BackendKind
  result : BuildResult
  err : Option GoError
  deriving DecidableEq, Repr

/-- Modelled from the spec: the composite strategy is not among the sources.
It iterates the backends in priority order; the first that can handle the
manifest and build state executes; a failure is returned as it is, except the
signal "not viable", after which control passes to the next backend in order.
`lastErr` is what is returned when no backend is left. -/
def compositeRun : BuildOrder → Option Context → Manifest → BuildState → GoError → CompositeRun
  | [], _, _, _, lastErr => ⟨[], BuildResult.zero, some lastErr⟩
  | (k, b) :: rest, ctx, m, s, lastErr =>
    if b.CanHandle m s then
      match b.Execute ctx m s with
      | ExecResult.succeeded r => ⟨[k], r, none⟩
      | ExecResult.failed err => ⟨[k], BuildResult.zero, some err⟩
      | ExecResult.notViable err =>
        let r := compositeRun rest ctx m s err
        ⟨k :: r.selected, r.result, r.err⟩
    else
      compositeRun rest ctx m s lastErr

/-- The error of an invocation in which every backend declined. -/
def noBackendErr : GoError := ⟨"no build backend can handle the manifest"⟩

/-- Modelled from the spec: `NewCompositeBuildAndDeployer` is not among the
sources; the composite is itself a `BuildAndDeployer`. -/
def NewCompositeBuildAndDeployer (order : BuildOrder) : BuildAndDeployer :=
  ⟨fun ctx m s =>
    let r := compositeRun order ctx m s noBackendErr
    (r.result, r.err)⟩

end Tilt

/-! # Properties -/

namespace Tilt

/-! ## String order and `sort.Strings` -/

theorem codes_injective : Function.Injective codes := by
  intro a b h
  unfold codes at h
  have hc : Function.Injective Char.toNat := by
    intro x y hxy
    exact Char.ext (UInt32.ext hxy)
  exact String.ext (List.map_injective_iff.mpr hc h)

instance strLE.isTotal : IsTotal String strLE := ⟨fun a b => le_total (codes a) (codes b)⟩

instance strLE.isTrans : IsTrans String strLE :=
  ⟨fun _ _ _ hab hbc => le_trans (α := List Nat) hab hbc⟩

instance strLE.isAntisymm : IsAntisymm String strLE :=
  ⟨fun _ _ hab hba => codes_injective (le_antisymm hab hba)⟩

theorem sortStrings_perm (l : List String) : (sortStrings l).Perm l :=
  List.perm_insertionSort strLE l

theorem sortStrings_sorted (l : List String) : (sortStrings l).Sorted strLE :=
  List.sorted_insertionSort strLE l

/-- A sorted list is a fixed point of `sort.Strings`. -/
theorem sortStrings_of_sorted {l : List String} (h : l.Sorted strLE) : sortStrings l = l :=
  List.Sorted.insertionSort_eq h

/-- Any ascending rearrangement of `l` is the list `sort.Strings` produces, so
the sorting algorithm of the standard library does not matter. -/
theorem sortStrings_unique {l l2 : List String} (hp : l2.Perm l) (hs : l2.Sorted strLE) :
    l2 = sortStrings l :=
  List.eq_of_perm_of_sorted (hp.trans (sortStrings_perm l).symm) hs (sortStrings_sorted l)

/-- The result of `sort.Strings` depends only on the elements, not on their
order in the input. -/
theorem sortStrings_congr {l l2 : List String} (h : l.Perm l2) :
    sortStrings l = sortStrings l2 :=
  List.eq_of_perm_of_sorted ((sortStrings_perm l).trans (h.trans (sortStrings_perm l2).symm))
    (sortStrings_sorted l) (sortStrings_sorted l2)

/-- Sorting distinct strings gives a strictly increasing list. -/
theorem sortStrings_strict {l : List String} (h : l.Nodup) :
    (sortStrings l).Sorted strLT := by
  have hn : (sortStrings l).Nodup := (sortStrings_perm l).nodup_iff.mpr h
  have hs := sortStrings_sorted l
  have hb : (sortStrings l).Pairwise (fun a b => strLE a b ∧ a ≠ b) := hs.and hn
  exact hb.imp (fun {a b} hab =>
    lt_of_le_of_ne (α := List Nat) hab.1 (fun hc => hab.2 (codes_injective hc)))

/-! ## `needsBuild` -/

theorem needsBuild_empty (c : BuildController) (ctx : Context) (s : EngineState)
    (h : s.ManifestsToBuild = []) :
    needsBuild c ctx s = Except.ok (c, buildEntry.zero, false) := by
  simp [needsBuild, h]

theorem needsBuild_same_count (c : BuildController) (ctx : Context) (s : EngineState)
    (h : c.lastActionCount = s.BuildControllerActionCount) :
    needsBuild c ctx s = Except.ok (c, buildEntry.zero, false) := by
  unfold needsBuild
  split
  · rfl
  · simp [h]

theorem needsBuild_fire (c : BuildController) (ctx : Context) (s : EngineState)
    (mn : ManifestName) (rest : List ManifestName) (ms : ManifestState)
    (hq : s.ManifestsToBuild = mn :: rest)
    (hc : c.lastActionCount ≠ s.BuildControllerActionCount)
    (hm : s.ManifestStates mn = some ms) :
    needsBuild c ctx s =
      Except.ok (⟨c.b, s.BuildControllerActionCount⟩, entryFor ctx ms, true) := by
  simp [needsBuild, hq, hc, hm, entryFor]

theorem needsBuild_missing (c : BuildController) (ctx : Context) (s : EngineState)
    (mn : ManifestName) (rest : List ManifestName)
    (hq : s.ManifestsToBuild = mn :: rest)
    (hc : c.lastActionCount ≠ s.BuildControllerActionCount)
    (hm : s.ManifestStates mn = none) :
    needsBuild c ctx s = Except.error Panic.nilDereference := by
  simp [needsBuild, hq, hc, hm]

/-- What a positive answer of `needsBuild` tells about its inputs. -/
theorem needsBuild_true_inv {c c1 : BuildController} {ctx : Context} {s : EngineState}
    {e : buildEntry} (h : needsBuild c ctx s = Except.ok (c1, e, true)) :
    ∃ mn rest ms, s.ManifestsToBuild = mn :: rest ∧
      c.lastActionCount ≠ s.BuildControllerActionCount ∧
      s.ManifestStates mn = some ms ∧
      c1 = ⟨c.b, s.BuildControllerActionCount⟩ ∧ e = entryFor ctx ms := by
  cases hq : s.ManifestsToBuild with
  | nil => rw [needsBuild_empty c ctx s hq] at h; simp at h
  | cons mn rest =>
    by_cases hc : c.lastActionCount = s.BuildControllerActionCount
    · rw [needsBuild_same_count c ctx s hc] at h; simp at h
    · cases hm : s.ManifestStates mn with
      | none => rw [needsBuild_missing c ctx s mn rest hq hc hm] at h; simp at h
      | some ms =>
        rw [needsBuild_fire c ctx s mn rest ms hq hc hm] at h
        simp only [Except.ok.injEq, Prod.mk.injEq] at h
        exact ⟨mn, rest, ms, rfl, hc, hm, h.1.symm, h.2.1.symm⟩

/-- What a negative answer of `needsBuild` tells about its inputs. -/
theorem needsBuild_false_inv {c c1 : BuildController} {ctx : Context} {s : EngineState}
    {e : buildEntry} (h : needsBuild c ctx s = Except.ok (c1, e, false)) :
    (s.ManifestsToBuild = [] ∨ c.lastActionCount = s.BuildControllerActionCount) ∧
      c1 = c ∧ e = buildEntry.zero := by
  cases hq : s.ManifestsToBuild with
  | nil =>
    rw [needsBuild_empty c ctx s hq] at h
    simp only [Except.ok.injEq, Prod.mk.injEq] at h
    exact ⟨Or.inl rfl, h.1.symm, h.2.1.symm⟩
  | cons mn rest =>
    by_cases hc : c.lastActionCount = s.BuildControllerActionCount
    · rw [needsBuild_same_count c ctx s hc] at h
      simp only [Except.ok.injEq, Prod.mk.injEq] at h
      exact ⟨Or.inr hc, h.1.symm, h.2.1.symm⟩
    · cases hm : s.ManifestStates mn with
      | none => rw [needsBuild_missing c ctx s mn rest hq hc hm] at h; simp at h
      | some ms => rw [needsBuild_fire c ctx s mn rest ms hq hc hm] at h; simp at h

theorem OnChange_of_needsBuild {c c1 : BuildController} {ctx : Context} {s : EngineState}
    {e : buildEntry} {ok : Bool} (h : needsBuild c ctx s = Except.ok (c1, e, ok)) :
    OnChange c ctx s = Except.ok (c1, if ok then some e else none) := by
  unfold OnChange
  rw [h]
  cases ok <;> rfl

theorem headState_cons {s : EngineState} {mn : ManifestName} {rest : List ManifestName}
    (hq : s.ManifestsToBuild = mn :: rest) : headState s = s.ManifestStates mn := by
  simp [headState, hq]

theorem dispatched_append (xs ys : List Effect) :
    dispatched (xs ++ ys) = dispatched xs ++ dispatched ys := by
  induction xs with
  | nil => rfl
  | cons x xs ih => cases x <;> simp [dispatched, ih]

theorem deployCalls_append (xs ys : List Effect) :
    deployCalls (xs ++ ys) = deployCalls xs ++ deployCalls ys := by
  induction xs with
  | nil => rfl
  | cons x xs ih => cases x <;> simp [deployCalls, ih]

theorem dispatched_infof (ctx : Option Context) (ls : List LogLine) :
    dispatched (ls.map (Effect.infof ctx)) = [] := by
  induction ls with
  | nil => rfl
  | cons l ls ih => simpa [dispatched] using ih

theorem deployCalls_infof (ctx : Option Context) (ls : List LogLine) :
    deployCalls (ls.map (Effect.infof ctx)) = [] := by
  induction ls with
  | nil => rfl
  | cons l ls ih => simpa [deployCalls] using ih

/-! ## The claims about `needsBuild` -/

/-- C1, debounce idempotence. If a call of `needsBuild` on state `s` returns,
whatever its answer, the next call on the same `s` (with the controller as the
first call left it, and any context) answers `ok = false` with the zero entry
and leaves the controller as it is. Hence of two consecutive `OnChange` calls
on an unchanged state the second starts no task, so at most one task is
started. -/
theorem needsBuild_debounce (c c1 : BuildController) (ctx ctx2 : Context) (s : EngineState)
    (e1 : buildEntry) (ok1 : Bool)
    (h : needsBuild c ctx s = Except.ok (c1, e1, ok1)) :
    needsBuild c1 ctx2 s = Except.ok (c1, buildEntry.zero, false) ∧
      OnChange c ctx s = Except.ok (c1, if ok1 then some e1 else none) ∧
      OnChange c1 ctx2 s = Except.ok (c1, none) := by
  have h2 : needsBuild c1 ctx2 s = Except.ok (c1, buildEntry.zero, false) := by
    cases ok1 with
    | true =>
      obtain ⟨mn, rest, ms, _, _, _, hc1, _⟩ := needsBuild_true_inv h
      exact needsBuild_same_count c1 ctx2 s (by rw [hc1])
    | false =>
      obtain ⟨hp, hc1, _⟩ := needsBuild_false_inv h
      subst hc1
      rcases hp with hp | hp
      · exact needsBuild_empty c1 ctx2 s hp
      · exact needsBuild_same_count c1 ctx2 s hp
  exact ⟨h2, OnChange_of_needsBuild h, OnChange_of_needsBuild h2⟩

/-- Witness of C1: a fresh controller on queue `[A, B]` fires once, and the
second call on the same state does not. -/
theorem needsBuild_debounce_witness :
    needsBuild (NewBuildController okDeployer) ctx0 (stateAB freshA 0) =
        Except.ok (⟨okDeployer, 0⟩, entryFor ctx0 freshA, true) ∧
      (needsBuild ⟨okDeployer, 0⟩ ctx0 (stateAB freshA 0) =
          Except.ok (⟨okDeployer, 0⟩, buildEntry.zero, false) ∧
        OnChange (NewBuildController okDeployer) ctx0 (stateAB freshA 0) =
          Except.ok (⟨okDeployer, 0⟩, if true then some (entryFor ctx0 freshA) else none) ∧
        OnChange ⟨okDeployer, 0⟩ ctx0 (stateAB freshA 0) = Except.ok (⟨okDeployer, 0⟩, none)) :=
  ⟨rfl, needsBuild_debounce (NewBuildController okDeployer) ⟨okDeployer, 0⟩ ctx0 ctx0
    (stateAB freshA 0) (entryFor ctx0 freshA) true rfl⟩

/-- C2 as amended, the decision of `needsBuild`. It returns `ok = false` exactly when
`ManifestsToBuild` is empty or `lastActionCount` equals the state's
`BuildControllerActionCount`, and then the entry is the zero `buildEntry` and
the controller is unchanged. In every other case, the queue head having its
manifest state, it returns `ok = true` with the entry assembled from that
state. -/
theorem needsBuild_nothing_iff (c : BuildController) (ctx : Context) (s : EngineState) :
    ((∃ c1 e, needsBuild c ctx s = Except.ok (c1, e, false)) ↔
        (s.ManifestsToBuild = [] ∨ c.lastActionCount = s.BuildControllerActionCount)) ∧
      ((s.ManifestsToBuild = [] ∨ c.lastActionCount = s.BuildControllerActionCount) →
        needsBuild c ctx s = Except.ok (c, buildEntry.zero, false)) ∧
      (¬ (s.ManifestsToBuild = [] ∨ c.lastActionCount = s.BuildControllerActionCount) →
        ∀ ms, headState s = some ms →
          needsBuild c ctx s =
            Except.ok (⟨c.b, s.BuildControllerActionCount⟩, entryFor ctx ms, true)) := by
  have hback : (s.ManifestsToBuild = [] ∨ c.lastActionCount = s.BuildControllerActionCount) →
      needsBuild c ctx s = Except.ok (c, buildEntry.zero, false) := by
    rintro (hp | hp)
    · exact needsBuild_empty c ctx s hp
    · exact needsBuild_same_count c ctx s hp
  refine ⟨⟨?_, fun hp => ⟨c, buildEntry.zero, hback hp⟩⟩, hback, ?_⟩
  · rintro ⟨c1, e, h⟩
    exact (needsBuild_false_inv h).1
  · intro hn ms hms
    cases hq : s.ManifestsToBuild with
    | nil => exact absurd (Or.inl hq) hn
    | cons mn rest =>
      rw [headState_cons hq] at hms
      exact needsBuild_fire c ctx s mn rest ms hq (fun hc => hn (Or.inr hc)) hms

/-- Witness of C2 as amended: queue `[A, B]`, counter `0`, fresh controller. -/
theorem needsBuild_nothing_iff_witness :
    ¬ ((stateAB freshA 0).ManifestsToBuild = [] ∨
        (NewBuildController okDeployer).lastActionCount =
          (stateAB freshA 0).BuildControllerActionCount) ∧
      headState (stateAB freshA 0) = some freshA ∧
      needsBuild (NewBuildController okDeployer) ctx0 (stateAB freshA 0) =
        Except.ok (⟨okDeployer, 0⟩, entryFor ctx0 freshA, true) :=
  ⟨by simp [stateAB, NewBuildController], rfl,
    (needsBuild_nothing_iff (NewBuildController okDeployer) ctx0 (stateAB freshA 0)).2.2
      (by simp [stateAB, NewBuildController]) freshA rfl⟩

/-- C2 as stated fails: in `stateOrphan` the queue is `[A]` and the counter 0,
so for a fresh controller the queue is not empty and the counts differ, but `A`
has no entry in `ManifestStates`; `needsBuild` does not return `ok = true`, it
dereferences nil. -/
theorem needsBuild_orphan_not_true :
    ¬ (stateOrphan.ManifestsToBuild = [] ∨
        (NewBuildController okDeployer).lastActionCount =
          stateOrphan.BuildControllerActionCount) ∧
      needsBuild (NewBuildController okDeployer) ctx0 stateOrphan =
        Except.error Panic.nilDereference ∧
      ¬ (∀ (c : BuildController) (ctx : Context) (s : EngineState),
          ¬ (s.ManifestsToBuild = [] ∨ c.lastActionCount = s.BuildControllerActionCount) →
            ∃ c1 e, needsBuild c ctx s = Except.ok (c1, e, true)) := by
  have hne : ¬ (stateOrphan.ManifestsToBuild = [] ∨
      (NewBuildController okDeployer).lastActionCount =
        stateOrphan.BuildControllerActionCount) := by
    simp [stateOrphan, NewBuildController]
  refine ⟨hne, rfl, fun hall => ?_⟩
  obtain ⟨c1, e, h⟩ := hall (NewBuildController okDeployer) ctx0 stateOrphan hne
  have hpanic : needsBuild (NewBuildController okDeployer) ctx0 stateOrphan =
      Except.error Panic.nilDereference := rfl
  rw [hpanic] at h
  cases h

/-- C3, FIFO selection. Whenever `needsBuild` returns `ok = true`, the queue is
non-empty, its head has a manifest state, and the manifest of the entry is the
one stored in that state; what is queued behind the head has no influence on
the answer. -/
theorem needsBuild_head (c c1 : BuildController) (ctx : Context) (s : EngineState)
    (e : buildEntry) (h : needsBuild c ctx s = Except.ok (c1, e, true)) :
    ∃ mn rest ms, s.ManifestsToBuild = mn :: rest ∧ s.ManifestStates mn = some ms ∧
      e.manifest = ms.Manifest ∧
      ∀ rest2, needsBuild c ctx ⟨s.ManifestStates, mn :: rest2, s.BuildControllerActionCount⟩ =
        Except.ok (c1, e, true) := by
  obtain ⟨mn, rest, ms, hq, hc, hm, hc1, he⟩ := needsBuild_true_inv h
  refine ⟨mn, rest, ms, hq, hm, by rw [he]; rfl, fun rest2 => ?_⟩
  rw [hc1, he]
  exact needsBuild_fire c ctx ⟨s.ManifestStates, mn :: rest2, s.BuildControllerActionCount⟩
    mn rest2 ms rfl hc hm

/-- Witness of C3: with queue `[A, B]` the entry is for `A`, not for `B`. -/
theorem needsBuild_head_witness :
    needsBuild (NewBuildController okDeployer) ctx0 (stateAB freshA 0) =
        Except.ok (⟨okDeployer, 0⟩, entryFor ctx0 freshA, true) ∧
      (entryFor ctx0 freshA).manifest = manifestA ∧
      (entryFor ctx0 freshA).manifest ≠ manifestB ∧
      ∃ mn rest ms, (stateAB freshA 0).ManifestsToBuild = mn :: rest ∧
        (stateAB freshA 0).ManifestStates mn = some ms ∧
        (entryFor ctx0 freshA).manifest = ms.Manifest ∧
        ∀ rest2, needsBuild (NewBuildController okDeployer) ctx0
            ⟨(stateAB freshA 0).ManifestStates, mn :: rest2,
              (stateAB freshA 0).BuildControllerActionCount⟩ =
          Except.ok (⟨okDeployer, 0⟩, entryFor ctx0 freshA, true) :=
  ⟨rfl, rfl, by decide,
    needsBuild_head (NewBuildController okDeployer) ⟨okDeployer, 0⟩ ctx0 (stateAB freshA 0)
      (entryFor ctx0 freshA) rfl⟩

/-- C4, deterministic changed-file list. Whenever `needsBuild` returns
`ok = true`, `entry.filesChanged` is a rearrangement of the keys of the head
manifest's `PendingFileChanges` (each pending path once, no other path), it is
strictly increasing in string order, and it is the same list for every
iteration order of the map. The build state of the entry is built from this
list, and the `BuildStartedAction` of a build pass carries it. -/
theorem needsBuild_filesChanged (c c1 : BuildController) (ctx : Context) (s : EngineState)
    (e : buildEntry) (h : needsBuild c ctx s = Except.ok (c1, e, true)) :
    ∃ ms, headState s = some ms ∧
      e.filesChanged.Perm ms.PendingFileChanges.keys ∧
      e.filesChanged.Nodup ∧
      (∀ p, p ∈ e.filesChanged ↔ p ∈ ms.PendingFileChanges.keys) ∧
      e.filesChanged.Sorted strLT ∧
      (∀ l : List String, l.Perm ms.PendingFileChanges.keys → sortStrings l = e.filesChanged) ∧
      e.buildState = NewBuildState ms.LastBuild e.filesChanged ∧
      (∀ w : World, e.needsConfigReload = false →
        (dispatched (buildTask c1 w e)).head? =
          some (Action.BuildStartedAction e.manifest w.now e.filesChanged)) := by
  obtain ⟨mn, rest, ms, hq, _, hm, _, he⟩ := needsBuild_true_inv h
  have hf : e.filesChanged = sortStrings ms.PendingFileChanges.keys := by rw [he]; rfl
  have hperm : e.filesChanged.Perm ms.PendingFileChanges.keys := by
    rw [hf]; exact sortStrings_perm _
  refine ⟨ms, by rw [headState_cons hq, hm], hperm,
    hperm.nodup_iff.mpr ms.PendingFileChanges.nodupKeys, fun p => hperm.mem_iff, ?_, ?_, ?_, ?_⟩
  · rw [hf]; exact sortStrings_strict ms.PendingFileChanges.nodupKeys
  · intro l hl
    rw [hf]; exact sortStrings_congr hl
  · rw [he]; rfl
  · intro w hr
    simp [buildTask, hr, dispatched]

/-- Witness of C4: for pending changes `b.txt`, `a.txt` the list is
`[a.txt, b.txt]`. -/
theorem needsBuild_filesChanged_witness :
    needsBuild (NewBuildController okDeployer) ctx0 (stateAB freshA 0) =
        Except.ok (⟨okDeployer, 0⟩, entryFor ctx0 freshA, true) ∧
      freshA.PendingFileChanges.keys = ["b.txt", "a.txt"] ∧
      (entryFor ctx0 freshA).filesChanged = ["a.txt", "b.txt"] ∧
      (entryFor ctx0 freshA).buildState.FilesChanged = ["a.txt", "b.txt"] ∧
      ∃ ms, headState (stateAB freshA 0) = some ms ∧
        (entryFor ctx0 freshA).filesChanged.Perm ms.PendingFileChanges.keys ∧
        (entryFor ctx0 freshA).filesChanged.Nodup ∧
        (∀ p, p ∈ (entryFor ctx0 freshA).filesChanged ↔ p ∈ ms.PendingFileChanges.keys) ∧
        (entryFor ctx0 freshA).filesChanged.Sorted strLT ∧
        (∀ l : List String, l.Perm ms.PendingFileChanges.keys →
          sortStrings l = (entryFor ctx0 freshA).filesChanged) ∧
        (entryFor ctx0 freshA).buildState =
          NewBuildState ms.LastBuild (entryFor ctx0 freshA).filesChanged ∧
        (∀ w : World, (entryFor ctx0 freshA).needsConfigReload = false →
          (dispatched (buildTask ⟨okDeployer, 0⟩ w (entryFor ctx0 freshA))).head? =
            some (Action.BuildStartedAction (entryFor ctx0 freshA).manifest w.now
              (entryFor ctx0 freshA).filesChanged)) :=
  ⟨rfl, rfl, by decide, by decide,
    needsBuild_filesChanged (NewBuildController okDeployer) ⟨okDeployer, 0⟩ ctx0
      (stateAB freshA 0) (entryFor ctx0 freshA) rfl⟩

/-! ## The task started by `OnChange` -/

theorem needsBuild_of_OnChange {c c1 : BuildController} {ctx : Context} {s : EngineState}
    {e : buildEntry} (h : OnChange c ctx s = Except.ok (c1, some e)) :
    needsBuild c ctx s = Except.ok (c1, e, true) := by
  unfold OnChange at h
  cases hn : needsBuild c ctx s with
  | error p => rw [hn] at h; simp at h
  | ok r =>
    obtain ⟨c2, e2, ok⟩ := r
    rw [hn] at h
    cases ok with
    | false => simp at h
    | true =>
      simp only [Bool.not_true, Bool.false_eq_true, if_false, Except.ok.injEq, Prod.mk.injEq,
        Option.some.injEq] at h
      rw [h.1, h.2]

/-- The entry of a started task is the one assembled from the head's state. -/
theorem OnChange_entry {c c1 : BuildController} {ctx : Context} {s : EngineState}
    {e : buildEntry} {ms : ManifestState} (h : OnChange c ctx s = Except.ok (c1, some e))
    (hhead : headState s = some ms) : e = entryFor ctx ms := by
  obtain ⟨mn, rest, ms2, hq, _, hm, _, he⟩ := needsBuild_true_inv (needsBuild_of_OnChange h)
  rw [headState_cons hq, hm] at hhead
  cases hhead
  exact he

theorem buildTask_reload (c : BuildController) (w : World) (e : buildEntry)
    (h : e.needsConfigReload = true) :
    buildTask c w e =
      [Effect.tiltfileLoad e.ctx,
       Effect.dispatch (Action.ManifestReloadedAction e.manifest
         (getNewManifestFromTiltfile w e.manifest.Name).1
         (getNewManifestFromTiltfile w e.manifest.Name).2)] := by
  simp [buildTask, h]

theorem buildTask_build (c : BuildController) (w : World) (e : buildEntry)
    (h : e.needsConfigReload = false) :
    buildTask c w e =
      Effect.dispatch (Action.BuildStartedAction e.manifest w.now e.filesChanged) ::
        ((logBuildEntry w e).map (Effect.infof e.ctx) ++
          [Effect.buildAndDeploy e.ctx e.manifest e.buildState,
           Effect.dispatch (NewBuildCompleteAction
             (c.b.BuildAndDeploy e.ctx e.manifest e.buildState).1
             (c.b.BuildAndDeploy e.ctx e.manifest e.buildState).2)]) := by
  simp [buildTask, h]

theorem dispatched_build (c : BuildController) (w : World) (e : buildEntry)
    (h : e.needsConfigReload = false) :
    dispatched (buildTask c w e) =
      [Action.BuildStartedAction e.manifest w.now e.filesChanged,
       NewBuildCompleteAction (c.b.BuildAndDeploy e.ctx e.manifest e.buildState).1
         (c.b.BuildAndDeploy e.ctx e.manifest e.buildState).2] := by
  rw [buildTask_build c w e h]
  simp [dispatched, dispatched_append, dispatched_infof]

theorem deployCalls_build (c : BuildController) (w : World) (e : buildEntry)
    (h : e.needsConfigReload = false) :
    deployCalls (buildTask c w e) = [(e.ctx, e.manifest, e.buildState)] := by
  rw [buildTask_build c w e h]
  simp [deployCalls, deployCalls_append, deployCalls_infof]

theorem task_getLast (x a b : Effect) (l : List Effect) :
    (x :: (l ++ [a, b])).getLast? = some b := by
  have h : x :: (l ++ [a, b]) = (x :: l ++ [a]) ++ [b] := by simp
  rw [h, List.getLast?_concat]

/-- C5, config-reload precedence. When `OnChange` starts a task and the config
of the head manifest is dirty, the task loads the Tiltfile, dispatches one
action, a `ManifestReloadedAction` for the captured manifest, and stops: that
dispatch is its last effect, it dispatches no `BuildStartedAction` and no
build-complete action and never calls `BuildAndDeploy`, whatever file changes
are pending. -/
theorem OnChange_reload_pass (c c1 : BuildController) (ctx : Context) (s : EngineState)
    (e : buildEntry) (ms : ManifestState) (w : World)
    (hfire : OnChange c ctx s = Except.ok (c1, some e))
    (hhead : headState s = some ms) (hdirty : ms.ConfigIsDirty = true) :
    ∃ newManifest err,
      buildTask c1 w e =
        [Effect.tiltfileLoad e.ctx,
         Effect.dispatch (Action.ManifestReloadedAction ms.Manifest newManifest err)] ∧
      dispatched (buildTask c1 w e) =
        [Action.ManifestReloadedAction ms.Manifest newManifest err] ∧
      deployCalls (buildTask c1 w e) = [] ∧
      (∀ m t fs, Action.BuildStartedAction m t fs ∉ dispatched (buildTask c1 w e)) ∧
      (∀ r x, Action.BuildCompleteAction r x ∉ dispatched (buildTask c1 w e)) := by
  have he := OnChange_entry hfire hhead
  have hr : e.needsConfigReload = true := by rw [he]; exact hdirty
  have hm : e.manifest = ms.Manifest := by rw [he]; rfl
  refine ⟨(getNewManifestFromTiltfile w e.manifest.Name).1,
    (getNewManifestFromTiltfile w e.manifest.Name).2, ?_, ?_, ?_, ?_, ?_⟩
  · rw [buildTask_reload c1 w e hr, hm]
  · rw [buildTask_reload c1 w e hr, hm]; rfl
  · rw [buildTask_reload c1 w e hr]; rfl
  · intro m t fs
    rw [buildTask_reload c1 w e hr]
    simp [dispatched]
  · intro r x
    rw [buildTask_reload c1 w e hr]
    simp [dispatched]

/-- Witness of C5: manifest `A` with dirty config and two pending files. -/
theorem OnChange_reload_pass_witness :
    OnChange (NewBuildController okDeployer) ctx0 (stateAB dirtyA 0) =
        Except.ok (⟨okDeployer, 0⟩, some (entryFor ctx0 dirtyA)) ∧
      dirtyA.PendingFileChanges.keys = ["c.txt", "a.txt"] ∧
      ∃ newManifest err,
        buildTask ⟨okDeployer, 0⟩ world0 (entryFor ctx0 dirtyA) =
          [Effect.tiltfileLoad (entryFor ctx0 dirtyA).ctx,
           Effect.dispatch (Action.ManifestReloadedAction dirtyA.Manifest newManifest err)] ∧
        dispatched (buildTask ⟨okDeployer, 0⟩ world0 (entryFor ctx0 dirtyA)) =
          [Action.ManifestReloadedAction dirtyA.Manifest newManifest err] ∧
        deployCalls (buildTask ⟨okDeployer, 0⟩ world0 (entryFor ctx0 dirtyA)) = [] ∧
        (∀ m t fs, Action.BuildStartedAction m t fs ∉
          dispatched (buildTask ⟨okDeployer, 0⟩ world0 (entryFor ctx0 dirtyA))) ∧
        (∀ r x, Action.BuildCompleteAction r x ∉
          dispatched (buildTask ⟨okDeployer, 0⟩ world0 (entryFor ctx0 dirtyA))) :=
  ⟨rfl, rfl,
    OnChange_reload_pass (NewBuildController okDeployer) ⟨okDeployer, 0⟩ ctx0 (stateAB dirtyA 0)
      (entryFor ctx0 dirtyA) dirtyA world0 rfl rfl rfl⟩

/-- C6, build pass trace. When `OnChange` starts a task and the config of the
head manifest is clean, the task dispatches `BuildStartedAction` with the
entry's manifest and file list, then logs, then calls `BuildAndDeploy` once on
the entry's manifest and build state, then dispatches the build-complete
action made from what the call returned. So exactly two actions are
dispatched, the started action first and before the strategy runs, and no
`ManifestReloadedAction` is dispatched. -/
theorem OnChange_build_pass (c c1 : BuildController) (ctx : Context) (s : EngineState)
    (e : buildEntry) (ms : ManifestState) (w : World)
    (hfire : OnChange c ctx s = Except.ok (c1, some e))
    (hhead : headState s = some ms) (hclean : ms.ConfigIsDirty = false) :
    buildTask c1 w e =
        Effect.dispatch (Action.BuildStartedAction e.manifest w.now e.filesChanged) ::
          ((logBuildEntry w e).map (Effect.infof e.ctx) ++
            [Effect.buildAndDeploy e.ctx e.manifest e.buildState,
             Effect.dispatch (NewBuildCompleteAction
               (c1.b.BuildAndDeploy e.ctx e.manifest e.buildState).1
               (c1.b.BuildAndDeploy e.ctx e.manifest e.buildState).2)]) ∧
      dispatched (buildTask c1 w e) =
        [Action.BuildStartedAction e.manifest w.now e.filesChanged,
         NewBuildCompleteAction (c1.b.BuildAndDeploy e.ctx e.manifest e.buildState).1
           (c1.b.BuildAndDeploy e.ctx e.manifest e.buildState).2] ∧
      deployCalls (buildTask c1 w e) = [(e.ctx, e.manifest, e.buildState)] ∧
      c1.b = c.b ∧
      (∀ old new x, Action.ManifestReloadedAction old new x ∉ dispatched (buildTask c1 w e)) := by
  have he := OnChange_entry hfire hhead
  have hr : e.needsConfigReload = false := by rw [he]; exact hclean
  obtain ⟨_, _, _, _, _, _, hc1, _⟩ := needsBuild_true_inv (needsBuild_of_OnChange hfire)
  refine ⟨buildTask_build c1 w e hr, dispatched_build c1 w e hr, deployCalls_build c1 w e hr,
    by rw [hc1], ?_⟩
  intro old new x
  rw [dispatched_build c1 w e hr]
  simp [NewBuildCompleteAction]

/-- Witness of C6: manifest `A`, built before, clean config, two pending
files. -/
theorem OnChange_build_pass_witness :
    OnChange (NewBuildController okDeployer) ctx0 (stateAB builtA 0) =
        Except.ok (⟨okDeployer, 0⟩, some (entryFor ctx0 builtA)) ∧
      dispatched (buildTask ⟨okDeployer, 0⟩ world0 (entryFor ctx0 builtA)) =
        [Action.BuildStartedAction manifestA 42 ["a.txt", "c.txt"],
         Action.BuildCompleteAction BuildResult.zero none] ∧
      deployCalls (buildTask ⟨okDeployer, 0⟩ world0 (entryFor ctx0 builtA)) =
        [((entryFor ctx0 builtA).ctx, (entryFor ctx0 builtA).manifest,
          (entryFor ctx0 builtA).buildState)] :=
  ⟨rfl,
    (OnChange_build_pass (NewBuildController okDeployer) ⟨okDeployer, 0⟩ ctx0 (stateAB builtA 0)
      (entryFor ctx0 builtA) builtA world0 rfl rfl rfl).2.1,
    (OnChange_build_pass (NewBuildController okDeployer) ⟨okDeployer, 0⟩ ctx0 (stateAB builtA 0)
      (entryFor ctx0 builtA) builtA world0 rfl rfl rfl).2.2.1⟩

/-- C7, build errors become data. In a build pass, whatever pair
`(result, err)` the call of `BuildAndDeploy` returns, with `err` nil or not,
the task dispatches the build-complete action `NewBuildCompleteAction(result,
err)`, which carries exactly that result and that error; this dispatch is the
last thing the task does, and it follows the started action. -/
theorem buildTask_error_is_data (c : BuildController) (w : World) (e : buildEntry)
    (result : BuildResult) (err : Option GoError)
    (hbuild : e.needsConfigReload = false)
    (hret : c.b.BuildAndDeploy e.ctx e.manifest e.buildState = (result, err)) :
    dispatched (buildTask c w e) =
        [Action.BuildStartedAction e.manifest w.now e.filesChanged,
         NewBuildCompleteAction result err] ∧
      NewBuildCompleteAction result err = Action.BuildCompleteAction result err ∧
      (buildTask c w e).getLast? = some (Effect.dispatch (NewBuildCompleteAction result err)) ∧
      (dispatched (buildTask c w e)).count (Action.BuildCompleteAction result err) = 1 := by
  have hd := dispatched_build c w e hbuild
  rw [hret] at hd
  refine ⟨hd, rfl, ?_, ?_⟩
  · rw [buildTask_build c w e hbuild, hret]
    exact task_getLast _ _ _ _
  · rw [hd]
    simp [NewBuildCompleteAction]

/-- Witness of C7: a strategy that fails; its error is in the dispatched
action. -/
theorem buildTask_error_is_data_witness :
    dispatched (buildTask ⟨failDeployer, 0⟩ world0 (entryFor ctx0 builtA)) =
        [Action.BuildStartedAction (entryFor ctx0 builtA).manifest world0.now
           (entryFor ctx0 builtA).filesChanged,
         NewBuildCompleteAction BuildResult.zero (some ⟨"build failed"⟩)] ∧
      NewBuildCompleteAction BuildResult.zero (some ⟨"build failed"⟩) =
        Action.BuildCompleteAction BuildResult.zero (some ⟨"build failed"⟩) ∧
      (buildTask ⟨failDeployer, 0⟩ world0 (entryFor ctx0 builtA)).getLast? =
        some (Effect.dispatch (NewBuildCompleteAction BuildResult.zero (some ⟨"build failed"⟩))) ∧
      (dispatched (buildTask ⟨failDeployer, 0⟩ world0 (entryFor ctx0 builtA))).count
        (Action.BuildCompleteAction BuildResult.zero (some ⟨"build failed"⟩)) = 1 :=
  buildTask_error_is_data ⟨failDeployer, 0⟩ world0 (entryFor ctx0 builtA) BuildResult.zero
    (some ⟨"build failed"⟩) rfl rfl

/-! ## Reload -/

theorem getNewManifestFromTiltfile_ok (w : World) (name : ManifestName) (t : Tiltfile)
    (m : Manifest) (hl : w.load = Except.ok t)
    (hg : t.GetManifestConfigs name = Except.ok [m]) :
    getNewManifestFromTiltfile w name = (m, none) := by
  simp [getNewManifestFromTiltfile, hl, hg]

theorem getNewManifestFromTiltfile_fail (w : World) (name : ManifestName)
    (h : ¬ ∃ t m, w.load = Except.ok t ∧ t.GetManifestConfigs name = Except.ok [m]) :
    ∃ err, getNewManifestFromTiltfile w name = (Manifest.zero, some err) := by
  cases hl : w.load with
  | error x => exact ⟨manifestErrf x.msg [], by simp [getNewManifestFromTiltfile, hl]⟩
  | ok t =>
    cases hg : t.GetManifestConfigs name with
    | error x => exact ⟨manifestErrf x.msg [], by simp [getNewManifestFromTiltfile, hl, hg]⟩
    | ok ms =>
      by_cases hlen : ms.length ≠ 1
      · exact ⟨manifestErrf "Expected there to be 1 manifest for %s, got %d"
          [FmtArg.str name, FmtArg.int ms.length],
          by simp [getNewManifestFromTiltfile, hl, hg, hlen]⟩
      · exfalso
        apply h
        have h1 : ms.length = 1 := not_not.mp hlen
        obtain ⟨m, hm⟩ := List.length_eq_one.mp h1
        exact ⟨t, m, hl, by rw [hg, hm]⟩

/-- C9, reload reporting. In a reload pass the one action dispatched is a
`ManifestReloadedAction` whose `OldManifest` is the definition that
`needsBuild` read from the state of the queue head. If the reload succeeds
(the Tiltfile loads and yields exactly one manifest for the name) the action
carries that manifest as `NewManifest` and a nil `Error`. If it fails, the
action carries a non-nil `Error` (and the zero manifest as `NewManifest`). In
both cases no build action is dispatched and `BuildAndDeploy` is not called;
the controller hands the old definition to the reducer and writes nothing into
the state itself. -/
theorem OnChange_reload_report (c c1 : BuildController) (ctx : Context) (s : EngineState)
    (e : buildEntry) (ms : ManifestState) (w : World)
    (hfire : OnChange c ctx s = Except.ok (c1, some e))
    (hhead : headState s = some ms) (hdirty : ms.ConfigIsDirty = true) :
    (∀ t m, w.load = Except.ok t → t.GetManifestConfigs ms.Manifest.Name = Except.ok [m] →
        dispatched (buildTask c1 w e) = [Action.ManifestReloadedAction ms.Manifest m none]) ∧
      ((¬ ∃ t m, w.load = Except.ok t ∧ t.GetManifestConfigs ms.Manifest.Name = Except.ok [m]) →
        ∃ err, dispatched (buildTask c1 w e) =
          [Action.ManifestReloadedAction ms.Manifest Manifest.zero (some err)]) ∧
      deployCalls (buildTask c1 w e) = [] := by
  have he := OnChange_entry hfire hhead
  have hr : e.needsConfigReload = true := by rw [he]; exact hdirty
  have hm : e.manifest = ms.Manifest := by rw [he]; rfl
  rw [buildTask_reload c1 w e hr, hm]
  refine ⟨?_, ?_, rfl⟩
  · intro t m hl hg
    rw [getNewManifestFromTiltfile_ok w _ t m hl hg]
    rfl
  · intro hno
    obtain ⟨err, herr⟩ := getNewManifestFromTiltfile_fail w _ hno
    exact ⟨err, by rw [herr]; rfl⟩

/-- Witness of C9: the Tiltfile cannot be loaded (`world0`), and the action
reports the error together with the old definition of `A`; with `worldA` the
reload succeeds. -/
theorem OnChange_reload_report_witness :
    dispatched (buildTask ⟨okDeployer, 0⟩ world0 (entryFor ctx0 dirtyA)) =
        [Action.ManifestReloadedAction manifestA Manifest.zero (some ⟨"no Tiltfile", []⟩)] ∧
      dispatched (buildTask ⟨okDeployer, 0⟩ worldA (entryFor ctx0 dirtyA)) =
        [Action.ManifestReloadedAction manifestA
          ⟨"A", "img-a2", DeployTarget.cluster, TriggerMode.auto⟩ none] ∧
      deployCalls (buildTask ⟨okDeployer, 0⟩ worldA (entryFor ctx0 dirtyA)) = [] :=
  ⟨by decide,
    (OnChange_reload_report (NewBuildController okDeployer) ⟨okDeployer, 0⟩ ctx0
      (stateAB dirtyA 0) (entryFor ctx0 dirtyA) dirtyA worldA rfl rfl rfl).1 tiltfileA
      ⟨"A", "img-a2", DeployTarget.cluster, TriggerMode.auto⟩ rfl rfl,
    (OnChange_reload_report (NewBuildController okDeployer) ⟨okDeployer, 0⟩ ctx0
      (stateAB dirtyA 0) (entryFor ctx0 dirtyA) dirtyA worldA rfl rfl rfl).2.2⟩

/-! ## Log banner -/

/-- The build state made from the sorted key list returns that same list. -/
theorem entryFor_FilesChanged (ctx : Context) (ms : ManifestState) :
    (entryFor ctx ms).buildState.FilesChanged = sortStrings ms.PendingFileChanges.keys := by
  have hn : (sortStrings ms.PendingFileChanges.keys).Nodup :=
    (sortStrings_perm _).nodup_iff.mpr ms.PendingFileChanges.nodupKeys
  show sortStrings (sortStrings ms.PendingFileChanges.keys).dedup = _
  rw [List.Nodup.dedup hn]
  exact sortStrings_of_sorted (sortStrings_sorted _)

/-- C10, log banner form. In a build pass `firstBuild` is the negation of
`HasBeenBuilt` of the head manifest state. For a manifest never built,
`logBuildEntry` makes one `Infof` call, the `Building:` banner with the
manifest name, and no changed-files line. Otherwise it makes two calls: the
changed-files line, whose count is the length of the whole list
`buildState.FilesChanged()` (that is the number of pending files, whether or
not the printed paths are cut short) and whose paths are the printed paths,
followed by the `Rebuilding:` banner with the manifest name. -/
theorem logBuildEntry_banner (c c1 : BuildController) (ctx : Context) (s : EngineState)
    (e : buildEntry) (ms : ManifestState) (w : World)
    (h : needsBuild c ctx s = Except.ok (c1, e, true)) (hhead : headState s = some ms) :
    e.firstBuild = (!ms.HasBeenBuilt) ∧
      e.buildState.FilesChanged = e.filesChanged ∧
      e.buildState.FilesChanged.length = ms.PendingFileChanges.entries.length ∧
      (ms.HasBeenBuilt = false → logBuildEntry w e = [buildingBanner ms.Manifest.Name]) ∧
      (ms.HasBeenBuilt = true →
        logBuildEntry w e =
          [changedLine e.buildState.FilesChanged.length
             (w.TryAsCwdChildren (pathsToPrint w e.buildState.FilesChanged)),
           rebuildingBanner ms.Manifest.Name]) := by
  obtain ⟨mn, rest, ms2, hq, _, hm, _, he⟩ := needsBuild_true_inv h
  rw [headState_cons hq, hm] at hhead
  cases hhead
  have hfc := entryFor_FilesChanged ctx ms
  subst he
  refine ⟨rfl, hfc, ?_, ?_, ?_⟩
  · rw [hfc, (sortStrings_perm _).length_eq]
    simp [FileChangeMap.keys]
  · intro hb
    simp [logBuildEntry, entryFor, hb, buildingBanner]
  · intro hb
    have hb2 : (entryFor ctx ms).firstBuild = false := by simp [entryFor, hb]
    unfold logBuildEntry
    simp only [hb2, Bool.false_eq_true, if_false]
    rfl

/-- Witness of C10: `A` built before with pending `c.txt` and `a.txt` logs
`2 changed: [a.txt c.txt]` and the rebuild banner; the count stays 2 when only
one path is printed; `A` never built logs the first-build banner only. -/
theorem logBuildEntry_banner_witness :
    logBuildEntry world0 (entryFor ctx0 builtA) =
        [changedLine 2 ["a.txt", "c.txt"], rebuildingBanner "A"] ∧
      logBuildEntry world1 (entryFor ctx0 builtA) =
        [changedLine 2 ["a.txt", "..."], rebuildingBanner "A"] ∧
      logBuildEntry world0 (entryFor ctx0 freshA) = [buildingBanner "A"] ∧
      (entryFor ctx0 freshA).filesChanged = ["a.txt", "b.txt"] ∧
      (logBuildEntry world0 (entryFor ctx0 builtA) =
        [changedLine (entryFor ctx0 builtA).buildState.FilesChanged.length
           (world0.TryAsCwdChildren (pathsToPrint world0 (entryFor ctx0 builtA).buildState.FilesChanged)),
         rebuildingBanner builtA.Manifest.Name]) :=
  ⟨by decide, by decide, by decide, by decide,
    (logBuildEntry_banner (NewBuildController okDeployer) ⟨okDeployer, 0⟩ ctx0 (stateAB builtA 0)
      (entryFor ctx0 builtA) builtA world0 rfl rfl).2.2.2.2 rfl⟩

/-! ## At most one task in flight -/

theorem OnChange_none {c c1 : BuildController} {ctx : Context} {s : EngineState}
    (h : OnChange c ctx s = Except.ok (c1, none)) : c1 = c := by
  unfold OnChange at h
  cases hn : needsBuild c ctx s with
  | error p => rw [hn] at h; simp at h
  | ok r =>
    obtain ⟨c2, e2, ok⟩ := r
    rw [hn] at h
    cases ok with
    | true => simp at h
    | false =>
      simp only [Bool.not_false, if_true, Except.ok.injEq, Prod.mk.injEq, and_true] at h
      rw [← h]
      exact (needsBuild_false_inv hn).2.1

/-- The invariant of a run under the counter discipline. -/
theorem Run.steps_peak (xs : List StoreStep) :
    ∀ (r : Run) (g : Option Int), counterHeld g xs → r.peak ≤ 1 → r.inFlight ≤ 1 →
      (r.inFlight = 1 → g = some r.controller.lastActionCount) → (r.steps xs).peak ≤ 1 := by
  induction xs with
  | nil => intro r g _ hp _ _; exact hp
  | cons x xs ih =>
    intro r g hheld hp hi hg
    cases x with
    | completionReduced =>
      have hstep : r.steps (StoreStep.completionReduced :: xs) =
          Run.steps ⟨r.controller, r.inFlight - 1, r.peak⟩ xs := rfl
      rw [hstep]
      refine ih _ none hheld hp (by show r.inFlight - 1 ≤ 1; omega) ?_
      intro h1
      have h2 : r.inFlight - 1 = 1 := h1
      omega
    | onChange ctx st =>
      obtain ⟨hgs, hrest⟩ := hheld
      cases ho : OnChange r.controller ctx st with
      | error p =>
        have hstep : r.steps (StoreStep.onChange ctx st :: xs) = r := by
          simp [Run.steps, Run.step, ho]
        rw [hstep]; exact hp
      | ok res =>
        obtain ⟨c1, t⟩ := res
        cases t with
        | none =>
          have hstep : r.steps (StoreStep.onChange ctx st :: xs) =
              Run.steps ⟨c1, r.inFlight, r.peak⟩ xs := by
            simp [Run.steps, Run.step, ho]
          rw [hstep]
          refine ih _ _ hrest hp hi ?_
          intro h1
          have hc := OnChange_none ho
          have hg1 := hg h1
          rcases hgs with hgs | hgs
          · rw [hgs] at hg1; cases hg1
          · show some st.BuildControllerActionCount = some c1.lastActionCount
            rw [hc, ← hg1, hgs]
        | some e =>
          have hstep : r.steps (StoreStep.onChange ctx st :: xs) =
              Run.steps ⟨c1, r.inFlight + 1, max r.peak (r.inFlight + 1)⟩ xs := by
            simp [Run.steps, Run.step, ho]
          obtain ⟨_, _, _, _, hne, _, hc1, _⟩ := needsBuild_true_inv (needsBuild_of_OnChange ho)
          have h0 : r.inFlight = 0 := by
            rcases Nat.le_one_iff_eq_zero_or_eq_one.mp hi with h0 | h1
            · exact h0
            · exfalso
              have hg1 := hg h1
              rcases hgs with hgs | hgs
              · rw [hgs] at hg1; cases hg1
              · rw [hgs] at hg1
                exact hne (Option.some.inj hg1).symm
          rw [hstep]
          refine ih _ _ hrest ?_ ?_ ?_
          · show max r.peak (r.inFlight + 1) ≤ 1
            rw [h0]; exact max_le hp (le_refl 1)
          · show r.inFlight + 1 ≤ 1
            omega
          · intro _
            show some st.BuildControllerActionCount = some c1.lastActionCount
            rw [hc1]

/-- C8 as amended, at most one task in flight. If `BuildControllerActionCount`
changes only when the completion action of a started task is reduced (all
states presented to `OnChange` between two such reductions carry the same
counter), then in every run of the store loop the controller never has more
than one task whose completion action is not reduced yet. -/
theorem at_most_one_in_flight (c : BuildController) (xs : List StoreStep)
    (hheld : counterHeld none xs) : peakInFlight c xs ≤ 1 :=
  Run.steps_peak xs (Run.init c) none hheld (Nat.zero_le 1) (Nat.zero_le 1)
    (fun h => (Nat.zero_ne_one h).elim)

/-- Witness of C8 as amended: two calls at generation 0, the completion, then a
call at generation 1; two tasks are started, never two at once. -/
theorem at_most_one_in_flight_witness :
    counterHeld none
        [StoreStep.onChange ctx0 (stateAB freshA 0), StoreStep.onChange ctx0 (stateAB freshA 0),
         StoreStep.completionReduced, StoreStep.onChange ctx0 (stateAB builtA 1)] ∧
      peakInFlight (NewBuildController okDeployer)
        [StoreStep.onChange ctx0 (stateAB freshA 0), StoreStep.onChange ctx0 (stateAB freshA 0),
         StoreStep.completionReduced, StoreStep.onChange ctx0 (stateAB builtA 1)] ≤ 1 :=
  ⟨by simp [counterHeld, stateAB],
    at_most_one_in_flight (NewBuildController okDeployer) _ (by simp [counterHeld, stateAB])⟩

/-- C8 as stated fails: the controller is presented the queue `[A, B]` at
generation 0 and then at generation 1, with no completion action reduced in
between, and starts a task each time, so two tasks are in flight. -/
theorem two_tasks_in_flight :
    peakInFlight (NewBuildController okDeployer)
        [StoreStep.onChange ctx0 (stateAB freshA 0), StoreStep.onChange ctx0 (stateAB freshA 1)] = 2 ∧
      ¬ (∀ (c : BuildController) (xs : List StoreStep), peakInFlight c xs ≤ 1) :=
  ⟨rfl, fun h => absurd (h (NewBuildController okDeployer)
    [StoreStep.onChange ctx0 (stateAB freshA 0), StoreStep.onChange ctx0 (stateAB freshA 1)])
    (by decide)⟩

/-! ## Truncation of the printed paths -/

theorem logBuildEntry_rebuild (w : World) (e : buildEntry) (h : e.firstBuild = false) :
    logBuildEntry w e =
      [changedLine e.buildState.FilesChanged.length
         (w.TryAsCwdChildren (pathsToPrint w e.buildState.FilesChanged)),
       rebuildingBanner e.manifest.Name] := by
  unfold logBuildEntry
  simp only [h, Bool.false_eq_true, if_false]
  rfl

/-- C11, changed-path truncation. In a rebuild, with `files` the list
`buildState.FilesChanged()` and `M = maxChangedFilesToPrint`, the changed-files
line is made from the count of all files and from the list
`changedPathsToPrint`, which is `files` itself when `files` has at most `M`
elements, and the first `M` elements of `files` followed by the one marker
`...` when it has more: then `files[:M]` has exactly `M` elements (the slice is
in bounds), the printed list has `M + 1` elements, agrees with `files` below
index `M` and has the marker at index `M`. The entry and its build state are
arguments that are only read. -/
theorem logBuildEntry_truncation (w : World) (e : buildEntry) (files : List String)
    (hrebuild : e.firstBuild = false) (hfiles : e.buildState.FilesChanged = files) :
    logBuildEntry w e =
        [changedLine files.length (w.TryAsCwdChildren (pathsToPrint w files)),
         rebuildingBanner e.manifest.Name] ∧
      (files.length ≤ w.maxChangedFilesToPrint → pathsToPrint w files = files) ∧
      (w.maxChangedFilesToPrint < files.length →
        pathsToPrint w files = files.take w.maxChangedFilesToPrint ++ ["..."] ∧
        (files.take w.maxChangedFilesToPrint).length = w.maxChangedFilesToPrint ∧
        (pathsToPrint w files).length = w.maxChangedFilesToPrint + 1 ∧
        (∀ i, i < w.maxChangedFilesToPrint → (pathsToPrint w files)[i]? = files[i]?) ∧
        (pathsToPrint w files)[w.maxChangedFilesToPrint]? = some "...") := by
  refine ⟨by rw [← hfiles]; exact logBuildEntry_rebuild w e hrebuild, ?_, ?_⟩
  · intro hle
    have hn : ¬ files.length > w.maxChangedFilesToPrint := Nat.not_lt.mpr hle
    simp [pathsToPrint, hn]
  · intro hlt
    have hp : pathsToPrint w files = files.take w.maxChangedFilesToPrint ++ ["..."] := by
      simp [pathsToPrint, hlt]
    have hlen : (files.take w.maxChangedFilesToPrint).length = w.maxChangedFilesToPrint := by
      rw [List.length_take]; omega
    refine ⟨hp, hlen, ?_, ?_, ?_⟩
    · rw [hp, List.length_append, hlen]; rfl
    · intro i hi
      rw [hp, List.getElem?_append_left (by rw [hlen]; exact hi), List.getElem?_take_of_lt hi]
    · rw [hp, List.getElem?_append_right (by rw [hlen])]
      simp [hlen]

/-- Witness of C11: five changed files and `M = 3` print three paths and the
marker; two changed files print as they are; the count is that of all files. -/
theorem logBuildEntry_truncation_witness :
    (entryFor ctx0 builtMany).buildState.FilesChanged =
        ["a.go", "b.go", "c.go", "d.go", "e.go"] ∧
      pathsToPrint world0 ["a.go", "b.go", "c.go", "d.go", "e.go"] =
        ["a.go", "b.go", "c.go", "..."] ∧
      pathsToPrint world0 ["a.go", "b.go", "c.go"] = ["a.go", "b.go", "c.go"] ∧
      pathsToPrint world0 [] = [] ∧
      logBuildEntry world0 (entryFor ctx0 builtMany) =
        [changedLine 5 (world0.TryAsCwdChildren
           (pathsToPrint world0 ["a.go", "b.go", "c.go", "d.go", "e.go"])),
         rebuildingBanner "A"] :=
  ⟨by decide, by decide, by decide, by decide,
    (logBuildEntry_truncation world0 (entryFor ctx0 builtMany)
      ["a.go", "b.go", "c.go", "d.go", "e.go"] rfl (by decide)).1⟩

/-! ## Frame, safety and the first request -/

/-- C15, the state transition of `needsBuild`. After a call that returns, the
controller has the same strategy `b` as before and differs at most in
`lastActionCount`: that field equals the state's `BuildControllerActionCount`
when the answer is `ok = true`, and the whole controller is unchanged when the
answer is `ok = false`. The engine state is an argument that is only read: a
later call on the same state by a controller that has not acted on this
generation assembles the same entry, so the pending file changes are still
there. -/
theorem needsBuild_frame (c c1 : BuildController) (ctx : Context) (s : EngineState)
    (e : buildEntry) (ok : Bool) (h : needsBuild c ctx s = Except.ok (c1, e, ok)) :
    c1.b = c.b ∧
      c1 = ⟨c.b, c1.lastActionCount⟩ ∧
      (ok = true → c1.lastActionCount = s.BuildControllerActionCount) ∧
      (ok = false → c1.lastActionCount = c.lastActionCount ∧ c1 = c) ∧
      (ok = true → ∀ c2 : BuildController,
        c2.lastActionCount ≠ s.BuildControllerActionCount →
          needsBuild c2 ctx s = Except.ok (⟨c2.b, s.BuildControllerActionCount⟩, e, true)) := by
  cases ok with
  | true =>
    obtain ⟨mn, rest, ms, hq, _, hm, hc1, he⟩ := needsBuild_true_inv h
    subst hc1
    refine ⟨rfl, rfl, ?_, ?_, ?_⟩
    · intro _; rfl
    · intro hf; cases hf
    · intro _ c2 hc2
      rw [he]
      exact needsBuild_fire c2 ctx s mn rest ms hq hc2 hm
  | false =>
    obtain ⟨_, hc1, _⟩ := needsBuild_false_inv h
    subst hc1
    refine ⟨rfl, rfl, ?_, ?_, ?_⟩
    · intro hf; cases hf
    · intro _; exact ⟨rfl, rfl⟩
    · intro hf; cases hf

/-- Witness of C15: the fresh controller on queue `[A, B]` at generation 0. -/
theorem needsBuild_frame_witness :
    needsBuild (NewBuildController okDeployer) ctx0 (stateAB freshA 0) =
        Except.ok (⟨okDeployer, 0⟩, entryFor ctx0 freshA, true) ∧
      (BuildController.mk okDeployer 0).lastActionCount =
        (stateAB freshA 0).BuildControllerActionCount ∧
      needsBuild ⟨failDeployer, 5⟩ ctx0 (stateAB freshA 0) =
        Except.ok (⟨failDeployer, 0⟩, entryFor ctx0 freshA, true) :=
  ⟨rfl,
    (needsBuild_frame (NewBuildController okDeployer) ⟨okDeployer, 0⟩ ctx0 (stateAB freshA 0)
      (entryFor ctx0 freshA) true rfl).2.2.1 rfl,
    (needsBuild_frame (NewBuildController okDeployer) ⟨okDeployer, 0⟩ ctx0 (stateAB freshA 0)
      (entryFor ctx0 freshA) true rfl).2.2.2.2 rfl ⟨failDeployer, 5⟩ (by decide)⟩

/-- C16, the result of the single-manifest reload. `getNewManifestFromTiltfile`
returns a nil error exactly when the Tiltfile loads, `GetManifestConfigs(name)`
succeeds and yields exactly one manifest, and then it returns that manifest.
In every other case, also when the call yields no manifest or two or more, it
returns the zero manifest with a non-nil error. So a non-nil error never comes
with a populated manifest. -/
theorem getNewManifestFromTiltfile_result (w : World) (name : ManifestName) :
    ((getNewManifestFromTiltfile w name).2 = none ↔
        ∃ t m, w.load = Except.ok t ∧ t.GetManifestConfigs name = Except.ok [m]) ∧
      (∀ t m, w.load = Except.ok t → t.GetManifestConfigs name = Except.ok [m] →
        getNewManifestFromTiltfile w name = (m, none)) ∧
      ((¬ ∃ t m, w.load = Except.ok t ∧ t.GetManifestConfigs name = Except.ok [m]) →
        ∃ err, getNewManifestFromTiltfile w name = (Manifest.zero, some err)) ∧
      (∀ t ms, w.load = Except.ok t → t.GetManifestConfigs name = Except.ok ms →
        ms.length ≠ 1 → ∃ err, getNewManifestFromTiltfile w name = (Manifest.zero, some err)) ∧
      ((getNewManifestFromTiltfile w name).2 ≠ none →
        (getNewManifestFromTiltfile w name).1 = Manifest.zero) := by
  have hfail := getNewManifestFromTiltfile_fail w name
  have hok := getNewManifestFromTiltfile_ok w name
  refine ⟨⟨?_, ?_⟩, hok, hfail, ?_, ?_⟩
  · intro hnone
    by_contra hno
    obtain ⟨err, herr⟩ := hfail hno
    rw [herr] at hnone
    cases hnone
  · rintro ⟨t, m, hl, hg⟩
    rw [hok t m hl hg]
  · intro t ms hl hg hlen
    apply hfail
    rintro ⟨t2, m, hl2, hg2⟩
    rw [hl] at hl2
    cases hl2
    rw [hg] at hg2
    cases hg2
    exact hlen rfl
  · intro hsome
    by_cases hex : ∃ t m, w.load = Except.ok t ∧ t.GetManifestConfigs name = Except.ok [m]
    · obtain ⟨t, m, hl, hg⟩ := hex
      rw [hok t m hl hg] at hsome
      exact absurd rfl hsome
    · obtain ⟨err, herr⟩ := hfail hex
      rw [herr]

/-- Witness of C16: `tiltfileA` defines `A` once and `B` not at all. -/
theorem getNewManifestFromTiltfile_result_witness :
    getNewManifestFromTiltfile worldA "A" =
        (⟨"A", "img-a2", DeployTarget.cluster, TriggerMode.auto⟩, none) ∧
      (∃ err, getNewManifestFromTiltfile worldA "B" = (Manifest.zero, some err)) ∧
      (∃ err, getNewManifestFromTiltfile world0 "A" = (Manifest.zero, some err)) :=
  ⟨(getNewManifestFromTiltfile_result worldA "A").2.1 tiltfileA
      ⟨"A", "img-a2", DeployTarget.cluster, TriggerMode.auto⟩ rfl rfl,
    (getNewManifestFromTiltfile_result worldA "B").2.2.2.1 tiltfileA [] rfl rfl (by decide),
    ⟨_, rfl⟩⟩

/-- C17, safety of `needsBuild`. The head of the queue is read only after the
queue was found non-empty, so the index is never out of range, in any state.
In a state in which every queued name has its entry in `ManifestStates`, the
call returns. A call fails only by dereferencing the missing entry of the
queue head. -/
theorem needsBuild_safe (c : BuildController) (ctx : Context) (s : EngineState) :
    needsBuild c ctx s ≠ Except.error Panic.indexOutOfRange ∧
      (queueHasStates s → ∃ c1 e ok, needsBuild c ctx s = Except.ok (c1, e, ok)) ∧
      (∀ p, needsBuild c ctx s = Except.error p →
        p = Panic.nilDereference ∧
          ∃ mn rest, s.ManifestsToBuild = mn :: rest ∧ s.ManifestStates mn = none) := by
  have hcases : (∃ c1 e ok, needsBuild c ctx s = Except.ok (c1, e, ok)) ∨
      (needsBuild c ctx s = Except.error Panic.nilDereference ∧
        ∃ mn rest, s.ManifestsToBuild = mn :: rest ∧ s.ManifestStates mn = none) := by
    cases hq : s.ManifestsToBuild with
    | nil => exact Or.inl ⟨_, _, _, needsBuild_empty c ctx s hq⟩
    | cons mn rest =>
      by_cases hc : c.lastActionCount = s.BuildControllerActionCount
      · exact Or.inl ⟨_, _, _, needsBuild_same_count c ctx s hc⟩
      · cases hm : s.ManifestStates mn with
        | none => exact Or.inr ⟨needsBuild_missing c ctx s mn rest hq hc hm, mn, rest, rfl, hm⟩
        | some ms => exact Or.inl ⟨_, _, _, needsBuild_fire c ctx s mn rest ms hq hc hm⟩
  refine ⟨?_, ?_, ?_⟩
  · rcases hcases with ⟨c1, e, ok, h⟩ | ⟨h, _⟩ <;> rw [h] <;> simp
  · intro hinv
    rcases hcases with h | ⟨_, mn, rest, hq, hm⟩
    · exact h
    · have := hinv mn (by rw [hq]; exact List.mem_cons_self mn rest)
      rw [hm] at this
      cases this
  · intro p hp
    rcases hcases with ⟨c1, e, ok, h⟩ | ⟨h, hex⟩
    · rw [h] at hp; cases hp
    · rw [h] at hp
      cases hp
      exact ⟨rfl, hex⟩

/-- Witness of C17: the state with queue `[A, B]` satisfies the invariant and
the call returns; with the invariant broken the call dereferences nil. -/
theorem needsBuild_safe_witness :
    queueHasStates (stateAB freshA 0) ∧
      (∃ c1 e ok, needsBuild (NewBuildController okDeployer) ctx0 (stateAB freshA 0) =
        Except.ok (c1, e, ok)) ∧
      needsBuild (NewBuildController okDeployer) ctx0 stateOrphan =
        Except.error Panic.nilDereference :=
  ⟨by decide,
    (needsBuild_safe (NewBuildController okDeployer) ctx0 (stateAB freshA 0)).2.1 (by decide),
    rfl⟩

/-- C18 as amended, the first request is not debounced away. A controller fresh from
`NewBuildController` has `lastActionCount = -1`. For a state with a non-empty
queue and a counter that is not negative, its first `needsBuild` never answers
`ok = false`, and, the queue head having its manifest state, it answers
`ok = true` with the entry for the head. -/
theorem first_request_fires (b : BuildAndDeployer) (ctx : Context) (s : EngineState)
    (hq : s.ManifestsToBuild ≠ []) (hc : 0 ≤ s.BuildControllerActionCount) :
    (NewBuildController b).lastActionCount = -1 ∧
      (∀ c1 e, needsBuild (NewBuildController b) ctx s ≠ Except.ok (c1, e, false)) ∧
      (∀ ms, headState s = some ms →
        needsBuild (NewBuildController b) ctx s =
          Except.ok (⟨b, s.BuildControllerActionCount⟩, entryFor ctx ms, true)) := by
  have hne : (NewBuildController b).lastActionCount ≠ s.BuildControllerActionCount := by
    show (-1 : Int) ≠ s.BuildControllerActionCount
    omega
  refine ⟨rfl, ?_, ?_⟩
  · intro c1 e h
    rcases (needsBuild_false_inv h).1 with h1 | h1
    · exact hq h1
    · exact hne h1
  · intro ms hms
    cases hs : s.ManifestsToBuild with
    | nil => exact absurd hs hq
    | cons mn rest =>
      rw [headState_cons hs] at hms
      exact needsBuild_fire (NewBuildController b) ctx s mn rest ms hs hne hms

/-- Witness of C18 as amended: queue `[A, B]` at generation 0, when no counted action has
happened yet. -/
theorem first_request_fires_witness :
    (stateAB freshA 0).ManifestsToBuild ≠ [] ∧
      (0 : Int) ≤ (stateAB freshA 0).BuildControllerActionCount ∧
      needsBuild (NewBuildController okDeployer) ctx0 (stateAB freshA 0) =
        Except.ok (⟨okDeployer, (stateAB freshA 0).BuildControllerActionCount⟩,
          entryFor ctx0 freshA, true) :=
  ⟨by simp [stateAB], by simp [stateAB],
    (first_request_fires okDeployer ctx0 (stateAB freshA 0) (by simp [stateAB])
      (by simp [stateAB])).2.2 freshA rfl⟩

/-- C18 as stated fails: `stateOrphan` has a non-empty queue and counter 0, but
its queue head has no entry in `ManifestStates`; the first `needsBuild` of a
fresh controller does not return `ok = true`, it dereferences nil. -/
theorem first_request_orphan :
    stateOrphan.ManifestsToBuild ≠ [] ∧
      (0 : Int) ≤ stateOrphan.BuildControllerActionCount ∧
      needsBuild (NewBuildController failDeployer) ctx0 stateOrphan =
        Except.error Panic.nilDereference ∧
      ¬ (∀ (b : BuildAndDeployer) (ctx : Context) (s : EngineState),
          s.ManifestsToBuild ≠ [] → 0 ≤ s.BuildControllerActionCount →
            ∃ c1 e, needsBuild (NewBuildController b) ctx s = Except.ok (c1, e, true)) := by
  have hq : stateOrphan.ManifestsToBuild ≠ [] := by simp [stateOrphan]
  have hc : (0 : Int) ≤ stateOrphan.BuildControllerActionCount := by simp [stateOrphan]
  refine ⟨hq, hc, rfl, fun hall => ?_⟩
  obtain ⟨c1, e, h⟩ := hall failDeployer ctx0 stateOrphan hq hc
  have hpanic : needsBuild (NewBuildController failDeployer) ctx0 stateOrphan =
      Except.error Panic.nilDereference := rfl
  rw [hpanic] at h
  cases h

/-! ## What the entry keeps of the state -/

theorem banner_mem_logBuildEntry (w : World) (e : buildEntry) :
    (if e.firstBuild then buildingBanner e.manifest.Name else rebuildingBanner e.manifest.Name) ∈
      logBuildEntry w e := by
  cases hb : e.firstBuild with
  | true => simp [logBuildEntry, hb, buildingBanner]
  | false =>
    rw [logBuildEntry_rebuild w e hb]
    simp

/-- C12, what the code does. Whenever `needsBuild` returns `ok = true`, the
context of the entry is the caller's context forked into `CurrentBuildLog` of
the head manifest state, a buffer that belongs to the engine state. The task
uses that context after the read lock is released: in a build pass its banner
is logged through it, in a reload pass the Tiltfile loader writes through it.
So the entry does hold a reference into the engine state, and the task writes
to the state's build log without a dispatch. -/
theorem entry_ctx_keeps_build_log (c c1 : BuildController) (ctx : Context) (s : EngineState)
    (e : buildEntry) (h : needsBuild c ctx s = Except.ok (c1, e, true)) :
    ∃ ms, headState s = some ms ∧
      e.ctx = some (CtxWithForkedOutput ctx ms.CurrentBuildLog) ∧
      ms.CurrentBuildLog ∈ (CtxWithForkedOutput ctx ms.CurrentBuildLog).sinks ∧
      (∀ w : World, e.needsConfigReload = false →
        Effect.infof (some (CtxWithForkedOutput ctx ms.CurrentBuildLog))
            (if e.firstBuild then buildingBanner e.manifest.Name
              else rebuildingBanner e.manifest.Name) ∈
          buildTask c1 w e) ∧
      (∀ w : World, e.needsConfigReload = true →
        Effect.tiltfileLoad (some (CtxWithForkedOutput ctx ms.CurrentBuildLog)) ∈
          buildTask c1 w e) := by
  obtain ⟨mn, rest, ms, hq, _, hm, _, he⟩ := needsBuild_true_inv h
  have hctx : e.ctx = some (CtxWithForkedOutput ctx ms.CurrentBuildLog) := by rw [he]; rfl
  refine ⟨ms, by rw [headState_cons hq, hm], hctx, by simp [CtxWithForkedOutput], ?_, ?_⟩
  · intro w hr
    rw [buildTask_build c1 w e hr, ← hctx]
    refine List.mem_cons_of_mem _ (List.mem_append_left _ ?_)
    exact List.mem_map_of_mem _ (banner_mem_logBuildEntry w e)
  · intro w hr
    rw [buildTask_reload c1 w e hr, ← hctx]
    exact List.mem_cons_self _ _

/-- C12 at the failing input: queue `[A, B]`, `A` built before with its build
log at buffer 100. The entry's context writes to buffer 100, and the task logs
the rebuild banner through it. -/
theorem entry_ctx_keeps_build_log_witness :
    needsBuild (NewBuildController okDeployer) ctx0 (stateAB builtA 0) =
        Except.ok (⟨okDeployer, 0⟩, entryFor ctx0 builtA, true) ∧
      builtA.CurrentBuildLog = 100 ∧
      (entryFor ctx0 builtA).ctx = some ⟨[1, 100]⟩ ∧
      Effect.infof (some ⟨[1, 100]⟩) (rebuildingBanner "A") ∈
        buildTask ⟨okDeployer, 0⟩ world0 (entryFor ctx0 builtA) ∧
      ∃ ms, headState (stateAB builtA 0) = some ms ∧
        (entryFor ctx0 builtA).ctx = some (CtxWithForkedOutput ctx0 ms.CurrentBuildLog) ∧
        ms.CurrentBuildLog ∈ (CtxWithForkedOutput ctx0 ms.CurrentBuildLog).sinks ∧
        (∀ w : World, (entryFor ctx0 builtA).needsConfigReload = false →
          Effect.infof (some (CtxWithForkedOutput ctx0 ms.CurrentBuildLog))
              (if (entryFor ctx0 builtA).firstBuild
                then buildingBanner (entryFor ctx0 builtA).manifest.Name
                else rebuildingBanner (entryFor ctx0 builtA).manifest.Name) ∈
            buildTask ⟨okDeployer, 0⟩ w (entryFor ctx0 builtA)) ∧
        (∀ w : World, (entryFor ctx0 builtA).needsConfigReload = true →
          Effect.tiltfileLoad (some (CtxWithForkedOutput ctx0 ms.CurrentBuildLog)) ∈
            buildTask ⟨okDeployer, 0⟩ w (entryFor ctx0 builtA)) :=
  ⟨rfl, rfl, rfl, by decide,
    entry_ctx_keeps_build_log (NewBuildController okDeployer) ⟨okDeployer, 0⟩ ctx0
      (stateAB builtA 0) (entryFor ctx0 builtA) rfl⟩

/-! ## The composite strategy -/

end Tilt
